import Mathlib

/-!
Verification of the gauge renderer `draw_shapes` from
`src/examples/render_layers.rs` of `bevy_vector_shapes`.

The renderer is embedded shallowly: machine `f32` arithmetic is modelled
over `ℝ`, the immediate-mode `ShapePainter` is modelled as an explicit
state (`PainterState`) threaded through the draw sequence together with a
trace of the calls it receives (`Event`): one `Event.arc` per
`painter.arc(radius, start, end)` call, recording the style state in
effect at that call, and one `Event.translate` per `painter.translate(v)`
call.
-/

namespace Gauge

/-- 3-vector over ℝ, modelling `glam`'s `Vec3`; the additive group and
scalar action come from the product instances. -/
abbrev Vec3 : Type := ℝ × ℝ × ℝ

/-- The unit Y vector `Vec3::Y`. -/
def vecY : Vec3 := (0, 1, 0)

/-- The vector `Vec3::ONE`. -/
def vecOne : Vec3 := (1, 1, 1)

/-- Rotation of a vector by angle `θ` about the Z axis (the drawing
plane's normal), modelling `Quat::from_rotation_z(θ) * v`. -/
noncomputable def rotZ (θ : ℝ) (v : Vec3) : Vec3 :=
  (Real.cos θ * v.1 - Real.sin θ * v.2.1,
   Real.sin θ * v.1 + Real.cos θ * v.2.1,
   v.2.2)

/-- RGBA color, modelling `bevy`'s `Color::Rgba`. -/
structure Color where
  r : ℝ
  g : ℝ
  b : ℝ
  a : ℝ

/-- `Color::CRIMSON` (rgb 0.86, 0.08, 0.24). -/
def crimson : Color := ⟨0.86, 0.08, 0.24, 1.0⟩

/-- `Color::DARK_GRAY` (rgb 0.25, 0.25, 0.25). -/
def darkGray : Color := ⟨0.25, 0.25, 0.25, 1.0⟩

/-- `Color * f32`: scales the rgb channels, leaves alpha unchanged. -/
noncomputable def Color.scale (c : Color) (s : ℝ) : Color :=
  ⟨c.r * s, c.g * s, c.b * s, c.a⟩

/-- Arc cap style, modelling the plugin's `Cap` (the example only uses
`Cap::None` and `Cap::Round`). -/
inductive Cap where
  | none : Cap
  | round : Cap
deriving DecidableEq

/-- The painter's style/transform state as used by the example:
render-layer tag, hollow flag, transform scale, cap style, thickness,
color, and the accumulated local-origin translation. -/
structure PainterState where
  renderLayers : Option ℕ
  hollow : Bool
  scale : Vec3
  cap : Cap
  thickness : ℝ
  color : Color
  translation : Vec3

/-- One arc draw primitive, the spec's `ArcSegment` value: radius, angular
range, and the style state captured at the draw call. -/
structure ArcSegment where
  radius : ℝ
  startAngle : ℝ
  endAngle : ℝ
  thickness : ℝ
  cap : Cap
  color : Color
  layer : Option ℕ

/-- One observable painter call issued by the renderer. -/
inductive Event where
  | arc : ArcSegment → Event
  | translate : Vec3 → Event

/-- A painter is its current state together with the trace of calls it
has received this frame. -/
abbrev Painter : Type := PainterState × List Event

/-- Modelled from the spec: the plugin's `ShapePainter` internals are not
part of the sampled source; per the spec, `painter.clear()` "resets
drawing style/transform state for the frame". This is the neutral state
it resets to (no layer filter, not hollow, unit scale, no caps, unit
thickness, white color, zero translation). -/
def clearedState : PainterState :=
  { renderLayers := Option.none
    hollow := false
    scale := vecOne
    cap := Cap.none
    thickness := 1.0
    color := ⟨1.0, 1.0, 1.0, 1.0⟩
    translation := (0, 0, 0) }

/-- Modelled from the spec: `painter.clear()` resets the style/transform
state; the trace of calls already issued is unaffected. -/
def Painter.clear (p : Painter) : Painter := (clearedState, p.2)

/-- Assignment `painter.render_layers = l`. -/
def Painter.setRenderLayers (l : Option ℕ) (p : Painter) : Painter :=
  ({ p.1 with renderLayers := l }, p.2)

/-- Assignment `painter.hollow = b`. -/
def Painter.setHollow (b : Bool) (p : Painter) : Painter :=
  ({ p.1 with hollow := b }, p.2)

/-- Assignment `painter.transform.scale = v`. -/
def Painter.setScale (v : Vec3) (p : Painter) : Painter :=
  ({ p.1 with scale := v }, p.2)

/-- Assignment `painter.cap = c`. -/
def Painter.setCap (c : Cap) (p : Painter) : Painter :=
  ({ p.1 with cap := c }, p.2)

/-- Assignment `painter.thickness = x`. -/
def Painter.setThickness (x : ℝ) (p : Painter) : Painter :=
  ({ p.1 with thickness := x }, p.2)

/-- Assignment `painter.color = c`. -/
def Painter.setColor (c : Color) (p : Painter) : Painter :=
  ({ p.1 with color := c }, p.2)

/-- Modelled from the spec: `painter.translate(v)` "pushes a local-origin
offset applied to subsequent draw calls"; the offset accumulates on the
painter's translation and the call is recorded in the trace. -/
def Painter.translateBy (v : Vec3) (p : Painter) : Painter :=
  ({ p.1 with translation := p.1.translation + v },
   p.2 ++ [Event.translate v])

/-- `painter.arc(radius, startAngle, endAngle)`: records one arc segment
drawn with the style state current at the call. -/
def Painter.arcCall (radius s e : ℝ) (p : Painter) : Painter :=
  (p.1,
   p.2 ++ [Event.arc ⟨radius, s, e, p.1.thickness, p.1.cap, p.1.color,
     p.1.renderLayers⟩])

/-- `meter_fill` at elapsed time `t`: `(time.elapsed_seconds().sin() + 1.0) / 2.0`. -/
noncomputable def meterFill (t : ℝ) : ℝ := (Real.sin t + 1) / 2

/-- `meter_size`: `PI * 1.5`. -/
noncomputable def meterSize : ℝ := Real.pi * 1.5

/-- `start_angle`: `-meter_size / 2.0`. -/
noncomputable def startAngle : ℝ := -meterSize / 2

/-- `end_angle` at elapsed time `t`:
`-meter_size / 2.0 + meter_fill * meter_size`. -/
noncomputable def endAngle (t : ℝ) : ℝ := -meterSize / 2 + meterFill t * meterSize

/-- The fill arc's color intensity scale factor `1.0 / (0.5 + meter_fill)`. -/
noncomputable def colorScale (x : ℝ) : ℝ := 1.0 / (0.5 + x)

/-- The body of `draw_shapes(time, painter)`, run on a painter whose
incoming state is `s` at elapsed time `t`: a direct transcription of
`src/examples/render_layers.rs` lines 125–155. -/
noncomputable def drawShapesFrom (s : PainterState) (t : ℝ) : Painter :=
  let p := Painter.clear (s, [])
  let p := Painter.setRenderLayers (some 1) p
  let p := Painter.setHollow true p
  let p := Painter.setScale ((3.0 : ℝ) • vecOne) p
  let p := Painter.setCap Cap.round p
  let p := Painter.setThickness 0.4 p
  let p := Painter.setColor (Color.scale crimson (colorScale (meterFill t))) p
  let p := Painter.arcCall 1.3 startAngle (endAngle t) p
  let p := Painter.setCap Cap.none p
  let p := Painter.setThickness 0.2 p
  let p := Painter.setColor darkGray p
  let p := Painter.arcCall 1.6 startAngle (-startAngle) p
  let p := Painter.arcCall 0.8 startAngle (-startAngle) p
  let offset := (1.1 : ℝ) • rotZ startAngle vecY
  let p := Painter.translateBy offset p
  let p := Painter.arcCall 0.5 (startAngle + Real.pi * 1.5) (startAngle + 2.5 * Real.pi) p
  let p := Painter.translateBy (-offset) p
  let p := Painter.translateBy ((1.1 : ℝ) • rotZ (-startAngle) vecY) p
  let p := Painter.arcCall 0.5 (startAngle + Real.pi) (startAngle + 2.0 * Real.pi) p
  p

/-- The trace of painter calls one invocation of the renderer emits at
elapsed time `t`. -/
noncomputable def drawShapes (t : ℝ) : List Event :=
  (drawShapesFrom clearedState t).2

/-- The painter state left behind by one invocation at elapsed time `t`. -/
noncomputable def finalState (t : ℝ) : PainterState :=
  (drawShapesFrom clearedState t).1

/-- Whether an event is a `translate` call. -/
def Event.isTranslate : Event → Bool
  | .translate _ => true
  | .arc _ => false

/-- The radii of the arc events of a trace, in order. -/
def arcRadii (es : List Event) : List ℝ :=
  es.filterMap fun e =>
    match e with
    | .arc seg => some seg.radius
    | .translate _ => Option.none

/-- An event's angles are ordered: for an arc, `startAngle ≤ endAngle`;
translate calls carry no angles. -/
def anglesOrdered : Event → Prop
  | .arc seg => seg.startAngle ≤ seg.endAngle
  | .translate _ => True

/-- The fill arc segment emitted at time `t` (radius 1.3, round caps,
thickness 0.4, crimson scaled by the intensity factor). -/
noncomputable def fillArc (t : ℝ) : ArcSegment :=
  ⟨1.3, startAngle, endAngle t, 0.4, Cap.round,
   Color.scale crimson (colorScale (meterFill t)), some 1⟩

/-- A boundary arc segment at radius `r` (thickness 0.2, no caps,
dark gray), spanning the full meter range. -/
noncomputable def boundaryArc (r : ℝ) : ArcSegment :=
  ⟨r, startAngle, -startAngle, 0.2, Cap.none, darkGray, some 1⟩

/-- The first end-cap arc segment. -/
noncomputable def endcap1Arc : ArcSegment :=
  ⟨0.5, startAngle + Real.pi * 1.5, startAngle + 2.5 * Real.pi, 0.2,
   Cap.none, darkGray, some 1⟩

/-- The second end-cap arc segment. -/
noncomputable def endcap2Arc : ArcSegment :=
  ⟨0.5, startAngle + Real.pi, startAngle + 2.0 * Real.pi, 0.2,
   Cap.none, darkGray, some 1⟩

/-- The offset the first end-cap is translated by. -/
noncomputable def endcapOffset1 : Vec3 := (1.1 : ℝ) • rotZ startAngle vecY

/-- The offset the second end-cap is translated by. -/
noncomputable def endcapOffset2 : Vec3 := (1.1 : ℝ) • rotZ (-startAngle) vecY

/-- One invocation emits exactly this eight-call trace, for every `t`. -/
theorem trace_eq (t : ℝ) :
    drawShapes t =
      [Event.arc (fillArc t),
       Event.arc (boundaryArc 1.6),
       Event.arc (boundaryArc 0.8),
       Event.translate endcapOffset1,
       Event.arc endcap1Arc,
       Event.translate (-endcapOffset1),
       Event.translate endcapOffset2,
       Event.arc endcap2Arc] := rfl

/-- The final translation the renderer leaves on the painter: the second
end-cap offset (the first is applied and undone, the second is never
undone). -/
theorem final_translation_eq (t : ℝ) :
    (finalState t).translation = endcapOffset2 := by
  show clearedState.translation + endcapOffset1 + -endcapOffset1 + endcapOffset2 = endcapOffset2
  show (0, 0, 0) + endcapOffset1 + -endcapOffset1 + endcapOffset2 = endcapOffset2
  have h0 : ((0, 0, 0) : Vec3) = 0 := rfl
  rw [h0]
  abel

/-- Claim C1: for every elapsed time `t`, the fill arc emitted first by
the renderer satisfies `startAngle ≤ endAngle t`, and its angular span
`endAngle t - startAngle` equals `meterFill t * (1.5 * π)`, where
`startAngle = -(1.5π)/2` and `endAngle = startAngle + meterFill * 1.5π`. -/
theorem fill_arc_geometry (t : ℝ) :
    (drawShapes t).head? = some (Event.arc (fillArc t))
    ∧ (fillArc t).startAngle ≤ (fillArc t).endAngle
    ∧ (fillArc t).endAngle - (fillArc t).startAngle = meterFill t * (1.5 * Real.pi) := by
  refine ⟨rfl, ?_, ?_⟩
  · show startAngle ≤ endAngle t
    have h1 : -1 ≤ Real.sin t := Real.neg_one_le_sin t
    have h2 : (0 : ℝ) < Real.pi := Real.pi_pos
    unfold startAngle endAngle meterFill meterSize
    nlinarith
  · show endAngle t - startAngle = meterFill t * (1.5 * Real.pi)
    unfold startAngle endAngle meterFill meterSize
    ring

/-- Claim C2: for every elapsed time `t`, `meterFill t = (sin t + 1)/2`
lies in `[0, 1]`; in particular it is `0.5` at `t = 0`, `1` at `t = π/2`
and `0` at `t = 3π/2`. -/
theorem meter_fill_range (t : ℝ) :
    (0 ≤ meterFill t ∧ meterFill t ≤ 1)
    ∧ meterFill 0 = 0.5
    ∧ meterFill (Real.pi / 2) = 1
    ∧ meterFill (3 * Real.pi / 2) = 0 := by
  refine ⟨⟨?_, ?_⟩, ?_, ?_, ?_⟩
  · have := Real.neg_one_le_sin t
    unfold meterFill
    linarith
  · have := Real.sin_le_one t
    unfold meterFill
    linarith
  · unfold meterFill
    rw [Real.sin_zero]
    norm_num
  · unfold meterFill
    rw [Real.sin_pi_div_two]
    norm_num
  · unfold meterFill
    rw [show (3 * Real.pi / 2 : ℝ) = Real.pi / 2 + Real.pi by ring,
      Real.sin_add_pi, Real.sin_pi_div_two]
    norm_num

/-- Claim C3, counterexample: at `t = 0` the call sequence contains three
`translate` calls, not two. -/
theorem translate_count_ne_two : (drawShapes 0).countP Event.isTranslate ≠ 2 := by
  have h : (drawShapes 0).countP Event.isTranslate = 3 := rfl
  omega

/-- Claim C3 (amended): for every elapsed time `t`, one invocation emits
exactly 5 arcs in the fixed order [fill at radius 1.3, outer boundary at
radius 1.6, inner boundary at radius 0.8, end-cap 1 at radius 0.5,
end-cap 2 at radius 0.5]; at `t = 0` the fill arc's span is `0.75π`; and
the call sequence contains exactly three translate calls, of which the
first two bracket end-cap arc 1 only (the second undoing the first) and
the third immediately precedes end-cap arc 2 with no undo after it. -/
theorem gauge_call_sequence (t : ℝ) :
    arcRadii (drawShapes t) = [1.3, 1.6, 0.8, 0.5, 0.5]
    ∧ (drawShapes t).countP Event.isTranslate = 3
    ∧ (drawShapes t).drop 3 =
        [Event.translate endcapOffset1,
         Event.arc endcap1Arc,
         Event.translate (-endcapOffset1),
         Event.translate endcapOffset2,
         Event.arc endcap2Arc]
    ∧ (fillArc 0).endAngle - (fillArc 0).startAngle = 0.75 * Real.pi := by
  refine ⟨rfl, rfl, rfl, ?_⟩
  show endAngle 0 - startAngle = 0.75 * Real.pi
  unfold startAngle endAngle meterFill meterSize
  rw [Real.sin_zero]
  ring

/-- Claim C4: for every elapsed time `t`, the second and third emitted
arcs are the boundary arcs at radii 1.6 and 0.8, each spanning exactly
`[-0.75π, 0.75π]` with thickness 0.2, no caps and dark-gray color,
independent of `t`. -/
theorem boundary_arcs_constant (t : ℝ) :
    (drawShapes t)[1]? =
      some (Event.arc ⟨1.6, -(0.75 * Real.pi), 0.75 * Real.pi, 0.2, Cap.none, darkGray, some 1⟩)
    ∧ (drawShapes t)[2]? =
      some (Event.arc ⟨0.8, -(0.75 * Real.pi), 0.75 * Real.pi, 0.2, Cap.none, darkGray, some 1⟩) := by
  have hns : -startAngle = 0.75 * Real.pi := by
    unfold startAngle meterSize
    ring
  have hs : startAngle = -(0.75 * Real.pi) := by
    unfold startAngle meterSize
    ring
  rw [trace_eq]
  unfold boundaryArc
  rw [hns, hs]
  exact ⟨rfl, rfl⟩

/-- Claim C5: for every elapsed time `t`, every arc in the emitted call
sequence has `startAngle ≤ endAngle`. -/
theorem arcs_angles_ordered (t : ℝ) :
    List.Forall anglesOrdered (drawShapes t) := by
  have hpi : (0 : ℝ) < Real.pi := Real.pi_pos
  have hsin : -1 ≤ Real.sin t := Real.neg_one_le_sin t
  rw [trace_eq]
  refine ⟨?_, ?_, ?_, trivial, ?_, trivial, trivial, ?_⟩
  · show startAngle ≤ endAngle t
    unfold startAngle endAngle meterFill meterSize
    nlinarith
  · show startAngle ≤ -startAngle
    unfold startAngle meterSize
    nlinarith
  · show startAngle ≤ -startAngle
    unfold startAngle meterSize
    nlinarith
  · show startAngle + Real.pi * 1.5 ≤ startAngle + 2.5 * Real.pi
    nlinarith
  · show startAngle + Real.pi ≤ startAngle + 2.0 * Real.pi
    nlinarith

/-- Claim C6: for every elapsed time `t`, the tail of the call sequence
is exactly: translate by `endcapOffset1 = 1.1 • (rotZ startAngle ŷ)`,
draw end-cap arc 1 (radius 0.5, constant angular range), translate back
by `-endcapOffset1`, translate by `endcapOffset2` (the offset computed
from the negated start angle), draw end-cap arc 2 — with no further
translate after it. -/
theorem endcap_translation_sequence (t : ℝ) :
    (drawShapes t).drop 3 =
      [Event.translate ((1.1 : ℝ) • rotZ startAngle vecY),
       Event.arc ⟨0.5, startAngle + Real.pi * 1.5, startAngle + 2.5 * Real.pi, 0.2,
         Cap.none, darkGray, some 1⟩,
       Event.translate (-((1.1 : ℝ) • rotZ startAngle vecY)),
       Event.translate ((1.1 : ℝ) • rotZ (-startAngle) vecY),
       Event.arc ⟨0.5, startAngle + Real.pi, startAngle + 2.0 * Real.pi, 0.2,
         Cap.none, darkGray, some 1⟩] := rfl

/-- Claim C7: the fill arc's color intensity scale factor
`colorScale x = 1 / (0.5 + x)` is strictly decreasing in the fill
fraction on `[0, 1]`, and lies in `(0.5, 2]` there. -/
theorem color_scale_decreasing_bounded :
    (∀ x y : ℝ, 0 ≤ x → x < y → y ≤ 1 → colorScale y < colorScale x)
    ∧ (∀ x : ℝ, 0 ≤ x → x ≤ 1 → 0.5 < colorScale x ∧ colorScale x ≤ 2) := by
  constructor
  · intro x y hx hxy _
    have h1 : (0 : ℝ) < 0.5 + x := by linarith
    have h2 : (0 : ℝ) < 0.5 + y := by linarith
    unfold colorScale
    rw [div_lt_div_iff₀ h2 h1]
    nlinarith
  · intro x hx hx1
    have h1 : (0 : ℝ) < 0.5 + x := by linarith
    unfold colorScale
    constructor
    · rw [lt_div_iff₀ h1]
      nlinarith
    · rw [div_le_iff₀ h1]
      nlinarith

/-- Claim C7, witness: the general bounds instantiated at the concrete
fill fractions 0 and 1. -/
theorem color_scale_decreasing_bounded_witness :
    colorScale 1 < colorScale 0
    ∧ (0.5 < colorScale 0 ∧ colorScale 0 ≤ 2) :=
  ⟨color_scale_decreasing_bounded.1 0 1 (by norm_num) (by norm_num) (by norm_num),
   color_scale_decreasing_bounded.2 0 (by norm_num) (by norm_num)⟩

/-- Claim C8, counterexample: at `t = 0` the renderer leaves the painter
with a non-zero net translation, so its transform state is not neutral at
the end of the invocation. -/
theorem final_translation_nonzero :
    (finalState 0).translation ≠ ((0, 0, 0) : Vec3) := by
  have he := final_translation_eq 0
  have hang : -startAngle = 3 * Real.pi / 4 := by
    unfold startAngle meterSize
    ring
  have hpos : 0 < Real.sin (3 * Real.pi / 4) :=
    Real.sin_pos_of_pos_of_lt_pi (by positivity) (by linarith [Real.pi_pos])
  intro h
  rw [he] at h
  unfold endcapOffset2 rotZ vecY at h
  rw [hang] at h
  have h1 := congrArg Prod.fst h
  simp only [Prod.smul_fst, smul_eq_mul] at h1
  nlinarith

/-- Claim C8 (amended): the renderer does not leave the painter's
transform/style state neutral — a net translation of
`1.1 • (rotZ (3π/4) ŷ)` remains at the end of every invocation — but it
relies on the painter's per-frame `clear()`: the next invocation produces
the same calls from the leftover state as from the neutral state. -/
theorem painter_relies_on_clear (t u : ℝ) :
    (finalState t).translation = (1.1 : ℝ) • rotZ (3 * Real.pi / 4) vecY
    ∧ drawShapesFrom (finalState t) u = drawShapesFrom clearedState u := by
  have hang : -startAngle = 3 * Real.pi / 4 := by
    unfold startAngle meterSize
    ring
  refine ⟨?_, rfl⟩
  rw [final_translation_eq]
  unfold endcapOffset2
  rw [hang]

/-- Claim C9: the renderer is a deterministic pure function of the
elapsed time: two invocations at the same `t`, from any two incoming
painter states, produce identical painter results — in particular
bit-identical call traces (arc parameters and translate calls). -/
theorem renderer_deterministic (t : ℝ) (s₁ s₂ : PainterState) :
    drawShapesFrom s₁ t = drawShapesFrom s₂ t
    ∧ (drawShapesFrom s₁ t).2 = drawShapes t := ⟨rfl, rfl⟩

/-- Claim C10: for every elapsed time `t`, end-cap arc 1 spans exactly
`[startAngle + 1.5π, startAngle + 2.5π]` and end-cap arc 2 spans exactly
`[startAngle + π, startAngle + 2π]` — constant ranges independent of `t`,
each of width exactly `π`. -/
theorem endcap_arc_spans (t : ℝ) :
    (drawShapes t)[4]? =
      some (Event.arc ⟨0.5, startAngle + Real.pi * 1.5, startAngle + 2.5 * Real.pi, 0.2,
        Cap.none, darkGray, some 1⟩)
    ∧ (drawShapes t)[7]? =
      some (Event.arc ⟨0.5, startAngle + Real.pi, startAngle + 2.0 * Real.pi, 0.2,
        Cap.none, darkGray, some 1⟩)
    ∧ (startAngle + 2.5 * Real.pi) - (startAngle + Real.pi * 1.5) = Real.pi
    ∧ (startAngle + 2.0 * Real.pi) - (startAngle + Real.pi) = Real.pi := by
  refine ⟨rfl, rfl, by ring, by ring⟩

end Gauge
